import Mathlib

/-!
Verification of the riparian buffer compliance ETL pipeline
(`src/python-etl/etl_pipeline.py` and `src/python-etl/ndvi_processor.py`).

The Python code is shallowly embedded: pure functions become Lean functions
over `ℚ` (modelling finite IEEE doubles; a `none` of `Option ℚ` marks a
non-finite intermediate), tables become association lists `List (Nat × α)`
keyed by the natural key, and the stateful orchestration becomes explicit
state-passing records.  Database side effects delegated to SQL (buffer
generation, compliance intersection, summary aggregation) are abstracted
as injected functions, exactly as the spec treats them as collaborators.
-/

/- ---------------------------------------------------------------------
   Calendar dates (Python `datetime.date`, only what the code uses)
--------------------------------------------------------------------- -/

/-- Calendar date, modelling Python `datetime.date`. -/
structure Date where
  year : Nat
  month : Nat
  day : Nat
deriving DecidableEq

/-- Gregorian leap-year test (Python `calendar`/`date` semantics). -/
def isLeapYear (y : Nat) : Bool :=
  (y % 4 == 0 && y % 100 != 0) || y % 400 == 0

/-- Number of days in a month of a given year. -/
def daysInMonth (y m : Nat) : Nat :=
  if m == 2 then (if isLeapYear y then 29 else 28)
  else if m == 4 || m == 6 || m == 9 || m == 11 then 30
  else 31

/-- The next calendar day: models `last_date + timedelta(days=1)` in
`NdviProcessor.process_buffers_incremental`. -/
def Date.nextDay (d : Date) : Date :=
  if d.day < daysInMonth d.year d.month then ⟨d.year, d.month, d.day + 1⟩
  else if d.month < 12 then ⟨d.year, d.month + 1, 1⟩
  else ⟨d.year + 1, 1, 1⟩

/-- Strict chronological order on dates (lexicographic on year, month, day),
modelling Python `date` comparison. -/
def dateLtB (a b : Date) : Bool :=
  decide (a.year < b.year) ||
    (a.year == b.year &&
      (decide (a.month < b.month) ||
        (a.month == b.month && decide (a.day < b.day))))

/-- Zero-padded two-digit rendering used inside ISO date strings. -/
def pad2 (n : Nat) : String :=
  if n < 10 then "0" ++ toString n else toString n

/-- ISO rendering of a date: models Python `str(acq_date)`, which is how
`get_processed_keys` and `_process_scene_incremental` build key strings. -/
def dateStr (d : Date) : String :=
  toString d.year ++ "-" ++ pad2 d.month ++ "-" ++ pad2 d.day

/- ---------------------------------------------------------------------
   Pure NDVI functions (`ndvi_processor.py`)
--------------------------------------------------------------------- -/

/-- `PEAK_GROWING_MONTHS = frozenset({6, 7, 8})` from `ndvi_processor.py`. -/
def PEAK_GROWING_MONTHS : List Nat := [6, 7, 8]

/-- `determine_season` from `ndvi_processor.py`: peak growing season for
June through August, otherwise dormant. -/
def determine_season (acquisition_date : Date) : String :=
  if acquisition_date.month ∈ PEAK_GROWING_MONTHS then "peak_growing"
  else "dormant"

/-- `classify_health` from `ndvi_processor.py`.  Dormant-season readings are
always classified `dormant`; peak-growing readings use the fixed thresholds
0.3 (healthy above) and 0.15 (degraded at or above, bare below). -/
def classify_health (mean_ndvi : ℚ) (season : String) : String :=
  if season == "dormant" then "dormant"
  else if mean_ndvi > 3/10 then "healthy"
  else if mean_ndvi ≥ 15/100 then "degraded"
  else "bare"

/-- IEEE division producing `none` for a non-finite result: with finite
operands, `(a - b) / (a + b)` is non-finite exactly when the denominator
is zero (`x / 0 = ±inf`, `0 / 0 = NaN`). -/
def floatDiv (a b : ℚ) : Option ℚ :=
  if b = 0 then none else some (a / b)

/-- One pixel of `calculate_ndvi`: `(nir - red) / (nir + red)` with a
non-finite result replaced by `0.0` (the `np.where(np.isfinite ..)` step). -/
def ndviPixel (nir red : ℚ) : ℚ :=
  (floatDiv (nir - red) (nir + red)).getD 0

/-- `calculate_ndvi` from `ndvi_processor.py`, element-wise over the two
band arrays (flattened to lists). -/
def calculate_ndvi (nir red : List ℚ) : List ℚ :=
  List.zipWith ndviPixel nir red

/-- Smallest element of a list (0 for the empty list), modelling `np.min`
on a non-empty array. -/
def listMin : List ℚ → ℚ
  | [] => 0
  | v :: vs => vs.foldl min v

/-- Largest element of a list (0 for the empty list), modelling `np.max`
on a non-empty array. -/
def listMax : List ℚ → ℚ
  | [] => 0
  | v :: vs => vs.foldl max v

/-- Arithmetic mean of a list, modelling `np.mean`. -/
def listMean (l : List ℚ) : ℚ :=
  l.sum / l.length

/-- `compute_ndvi_stats` from `ndvi_processor.py`: filter to the valid
range `[-1, 1]` (which also excludes every non-finite float, since NaN
comparisons are false and infinities are out of range), then mean/min/max;
`(0, 0, 0)` when no pixel is valid. -/
def compute_ndvi_stats (ndvi : List ℚ) : ℚ × ℚ × ℚ :=
  let valid := ndvi.filter (fun v => decide (-1 ≤ v) && decide (v ≤ 1))
  if valid.isEmpty then (0, 0, 0)
  else (listMean valid, listMin valid, listMax valid)

/-- Rounding to four decimal places, modelling Python `round(x, 4)` (the
tie-breaking rule differs at exact half-way points, which no claim
exercises). -/
def round4 (q : ℚ) : ℚ :=
  (round (q * 10000) : ℤ) / 10000

/-- `NdviReading` dataclass from `ndvi_processor.py`. -/
structure NdviReading where
  buffer_id : Nat
  acquisition_date : Date
  mean_ndvi : ℚ
  min_ndvi : ℚ
  max_ndvi : ℚ
  health_category : String
  season_context : String
  satellite : String := "Sentinel-2"
deriving DecidableEq

/-- `NdviProcessor._extract_buffer_reading`.  The raster masking is
abstracted to its observable outcome: `none` when `geometry_mask` raises
(`ValueError`/`IndexError`), otherwise the list of NDVI pixels selected by
the buffer's mask.  Zero selected pixels yield no reading; otherwise the
stats are computed, rounded, and classified from the unrounded mean. -/
def extract_buffer_reading (buffer_id : Nat) (maskPixels : Option (List ℚ))
    (acq_date : Date) (season : String) : Option NdviReading :=
  match maskPixels with
  | none => none
  | some buffer_pixels =>
    if buffer_pixels.isEmpty then none
    else
      let s := compute_ndvi_stats buffer_pixels
      some { buffer_id := buffer_id
             acquisition_date := acq_date
             mean_ndvi := round4 s.1
             min_ndvi := round4 s.2.1
             max_ndvi := round4 s.2.2
             health_category := classify_health s.1 season
             season_context := season }

/- ---------------------------------------------------------------------
   Scene-first incremental extraction (`NdviProcessor`)
--------------------------------------------------------------------- -/

/-- Default satellite identifier, the `satellite` dataclass default and the
literal used in `_process_scene_incremental` key tuples. -/
def SENTINEL2 : String := "Sentinel-2"

/-- A processed-set key `(buffer_id, acquisition_date_string, satellite)`,
as returned by `NdviProcessor.get_processed_keys`. -/
abbrev NdviKey : Type := Nat × String × String

/-- The key a reading is stored under (`get_processed_keys` reads back
`buffer_id, acquisition_date::TEXT, satellite`). -/
def readingKey (r : NdviReading) : NdviKey :=
  (r.buffer_id, dateStr r.acquisition_date, r.satellite)

/-- One Sentinel-2 scene as the incremental extractor observes it: its
acquisition date, which buffers its footprint bbox covers
(`_buffers_intersecting_scene`), and for each buffer the outcome of the
deterministic band-read/mask pipeline (`none` when `geometry_mask` raises,
otherwise the NDVI pixels its mask selects). -/
structure SceneModel where
  acqDate : Date
  covers : Nat → Bool
  pixels : Nat → Option (List ℚ)

/-- The processed-set key checked for a buffer against a scene:
`(buffer_id, str(acq_date), "Sentinel-2")`. -/
def sceneKey (s : SceneModel) (bid : Nat) : NdviKey :=
  (bid, dateStr s.acqDate, SENTINEL2)

/-- `NdviProcessor._process_scene_incremental`.  The returned `Bool` is
true when the band reads were performed (i.e. the all-processed
short-circuit did not fire). -/
def process_scene_incremental (s : SceneModel) (bufferIds : List Nat)
    (processed : List NdviKey) : Bool × List NdviReading :=
  if bufferIds.all (fun bid => decide (sceneKey s bid ∈ processed)) then
    (false, [])
  else
    let relevant := bufferIds.filter s.covers
    (true, relevant.filterMap (fun bid =>
      if sceneKey s bid ∈ processed then none
      else extract_buffer_reading bid (s.pixels bid) s.acqDate
        (determine_season s.acqDate)))

/-- The scene loop of `NdviProcessor.process_buffers_incremental`:
accumulate the new readings of every scene (the processed set is loaded
once, before the loop, and not updated between scenes). -/
def processScenesIncremental (scenes : List SceneModel)
    (bufferIds : List Nat) (processed : List NdviKey) : List NdviReading :=
  (scenes.map (fun s => (process_scene_incremental s bufferIds processed).2)).flatten

/-- Window start of `process_buffers_incremental`: the day after the last
persisted acquisition date, or June 1 of the current year when none. -/
def ndviWindowStart (lastDate : Option Date) (today : Date) : Date :=
  match lastDate with
  | some d => d.nextDay
  | none => ⟨today.year, 6, 1⟩

/-- Window resolution and dispatch of
`NdviProcessor.process_buffers_incremental`: when the computed start is
after today the run returns 0 immediately — before `get_processed_keys`,
buffer loading, or the catalog search.  The returned `Bool` records
whether the catalog-search path was reached; `runWindow` abstracts the
search-and-process remainder applied to the resolved `(start, end)`
window, whose end is today. -/
def process_buffers_incremental (lastDate : Option Date) (today : Date)
    (runWindow : Date → Date → Nat) : Bool × Nat :=
  let start := ndviWindowStart lastDate today
  if dateLtB today start then (false, 0)
  else (true, runWindow start today)

/- ---------------------------------------------------------------------
   Change tracking and the upsert engine (`etl_pipeline.py`)
--------------------------------------------------------------------- -/

/-- `LayerChangeResult` dataclass from `etl_pipeline.py`. -/
structure LayerChangeResult where
  layer_name : String
  inserted : Nat
  updated : Nat
  skipped : Nat
deriving DecidableEq

/-- The `has_changes` property: true if any rows were inserted or updated. -/
def LayerChangeResult.has_changes (r : LayerChangeResult) : Bool :=
  decide (r.inserted > 0) || decide (r.updated > 0)

/-- The staging-table deduplication of `PostGISWriter.upsert` (the
`DELETE ... USING ... WHERE a.ctid < b.ctid AND a.key = b.key` statement):
a staged row is deleted exactly when a later-inserted row (larger `ctid`,
i.e. later in fetch order) has the same conflict key, so the last
occurrence per key survives, in table order. -/
def dedupKeepLast {α : Type} : List (Nat × α) → List (Nat × α)
  | [] => []
  | r :: rest =>
    if rest.any (fun b => b.1 == r.1) then dedupKeepLast rest
    else r :: dedupKeepLast rest

/-- The `INSERT ... ON CONFLICT (key) DO UPDATE` merge of
`PostGISWriter.upsert` over an association-list table: a staged row whose
key is absent is appended (counted inserted), otherwise it overwrites the
existing row (the update columns plus `imported_at`; modelled as the whole
row) and is counted updated. -/
def mergeUpsert {α : Type} (tbl staged : List (Nat × α)) :
    List (Nat × α) × Nat × Nat :=
  staged.foldl
    (fun acc r =>
      if acc.1.any (fun x => x.1 == r.1) then
        (acc.1.map (fun x => if x.1 == r.1 then r else x),
         acc.2.1, acc.2.2 + 1)
      else (acc.1 ++ [r], acc.2.1 + 1, acc.2.2))
    (tbl, 0, 0)

/-- Observable outcome of one `PostGISWriter.upsert` call: the target
table after the call, whether the staging table was dropped, and the
`(inserted, updated)` counts (`none` when the merge raised and the
exception propagated to the caller). -/
structure UpsertOutcome (α : Type) where
  target : List (Nat × α)
  stagingDropped : Bool
  result : Option (Nat × Nat)
deriving DecidableEq

/-- `PostGISWriter.upsert`: stage the batch (replace), deduplicate staged
rows keeping the last occurrence per key, then in one connection run the
merge, drop the staging table, and commit.  `mergeRaises` models the merge
statement raising: the exception propagates before the `DROP TABLE` line
is reached and before `commit`, so the connection context manager rolls
the transaction back (no partial merge) — but the staging table, created
and committed earlier, is left in place. -/
def upsert {α : Type} (tbl batch : List (Nat × α)) (mergeRaises : Bool) :
    UpsertOutcome α :=
  let staged := dedupKeepLast batch
  if mergeRaises then
    { target := tbl, stagingDropped := false, result := none }
  else
    let m := mergeUpsert tbl staged
    { target := m.1, stagingDropped := true, result := some m.2 }

/-- An upsert that is known not to raise, returning the new table and the
`(inserted, updated)` counts; used by the incremental orchestrator model. -/
def upsertCounts {α : Type} (tbl batch : List (Nat × α)) :
    List (Nat × α) × Nat × Nat :=
  mergeUpsert tbl (dedupKeepLast batch)

/- ---------------------------------------------------------------------
   Incremental parcel load (`EtlPipeline.load_parcels_incremental`)
--------------------------------------------------------------------- -/

/-- `ARCGIS_BATCH_SIZE = 1000` from `etl_pipeline.py`. -/
def ARCGIS_BATCH_SIZE : Nat := 1000

/-- The `dropna(subset=["parcel_id"])` step: keep only rows whose natural
key is non-null. -/
def dropNullParcelIds (page : List (Option Nat × Int)) : List (Nat × Int) :=
  page.filterMap (fun r => r.1.map (fun k => (k, r.2)))

/-- The fetch loop of `EtlPipeline.load_parcels_incremental`, returning
the successive batches handed to `writer.upsert` in order.  An empty page
ends the loop; a page that is empty after the null-key drop is skipped
(`continue`); otherwise the batch is upserted, and the loop ends when the
batch is shorter than `ARCGIS_BATCH_SIZE`. -/
def load_parcels_incremental :
    List (List (Option Nat × Int)) → List (List (Nat × Int))
  | [] => []
  | page :: rest =>
    if page.isEmpty then []
    else if (dropNullParcelIds page).isEmpty then
      load_parcels_incremental rest
    else if (dropNullParcelIds page).length < ARCGIS_BATCH_SIZE then
      [dropNullParcelIds page]
    else dropNullParcelIds page :: load_parcels_incremental rest

/- ---------------------------------------------------------------------
   Incremental orchestration (`EtlPipeline.run_incremental`)
--------------------------------------------------------------------- -/

/-- The pipeline operations `run_incremental` can invoke, in the order the
code would invoke them. -/
inductive EtlOp where
  | loadWatershed
  | generateBuffers
  | analyzeCompliance
  | calculateSummary
deriving DecidableEq

/-- `EtlPipeline.run_incremental`, given the combined streams/waterbodies
`LayerChangeResult` and the parcels `LayerChangeResult`: returns the list
of invoked operations (the bronze loads themselves are abstracted into the
two inputs; `load_watershed` is always invoked first) and the returned
triple `(streams_changed, parcels_changed, buffers_changed)`. -/
def run_incremental (nhdplus parcels : LayerChangeResult) :
    List EtlOp × (Bool × Bool × Bool) :=
  let streams_changed := nhdplus.has_changes
  let parcels_changed := parcels.has_changes
  let step :=
    if streams_changed then ([EtlOp.generateBuffers], true)
    else ([], false)
  let buffers_changed := step.2
  let ops_comp :=
    if parcels_changed || buffers_changed then [EtlOp.analyzeCompliance]
    else []
  let ops_sum :=
    if streams_changed || parcels_changed || buffers_changed then
      [EtlOp.calculateSummary]
    else []
  (EtlOp.loadWatershed :: (step.1 ++ ops_comp ++ ops_sum),
   (streams_changed, parcels_changed, buffers_changed))

/- ---------------------------------------------------------------------
   Full vs. incremental run over the layered database state
   (`EtlPipeline.run` and `EtlPipeline.run_incremental`)
--------------------------------------------------------------------- -/

/-- Worker for `dedupKeepFirst`, carrying the set of keys already seen
(the `seen_ids` set of `EtlPipeline.load_parcels`). -/
def dedupKeepFirstAux {α : Type} (seen : List Nat) :
    List (Nat × α) → List (Nat × α)
  | [] => []
  | r :: rest =>
    if seen.contains r.1 then dedupKeepFirstAux seen rest
    else r :: dedupKeepFirstAux (r.1 :: seen) rest

/-- The full-load parcel deduplication of `EtlPipeline.load_parcels`
(`drop_duplicates(keep="first")` plus the cross-batch `seen_ids` set):
the first occurrence per key survives. -/
def dedupKeepFirst {α : Type} (l : List (Nat × α)) : List (Nat × α) :=
  dedupKeepFirstAux [] l

/-- The derived-layer SQL, abstracted exactly as the spec treats it: the
database computes buffers from streams, compliance from parcels and
buffers, and the summary from the bronze tables plus silver layers.  The
`empty*` values are the contents of a freshly truncated table. -/
structure DerivedOps (B C S : Type) where
  emptyBuffers : B
  emptyCompliance : C
  emptySummary : S
  genBuffers : List (Nat × Int) → B
  genCompliance : List (Nat × Int) → B → C
  genSummary : Int → List (Nat × Int) → List (Nat × Int) → B → C → S

/-- The database state the two run paths act on: bronze tables keyed by
their natural key (watershed is a single always-replaced row) and the
derived silver/gold layers. -/
structure PipelineState (B C S : Type) where
  watershed : Int
  streams : List (Nat × Int)
  waterbodies : List (Nat × Int)
  parcels : List (Nat × Int)
  buffers : B
  compliance : C
  summary : S

/-- The data one run fetches from the feature services (all pages of a
layer concatenated; parcel rows already past the null-key drop). -/
structure Fetched where
  watershed : Int
  streamsBatch : List (Nat × Int)
  waterbodiesBatch : List (Nat × Int)
  parcelsBatch : List (Nat × Int)

/-- `EtlPipeline.run`: the full pipeline.  `load_watershed` truncates
`bronze.watersheds` with CASCADE — which, per the comment in the code,
clears `gold.riparian_summary` through its foreign key — then writes the
fetched row.  `_load_layer` truncates-and-replaces a layer only when its
fetch returned rows (`if not batches: return`); truncating streams
cascades through `silver.riparian_buffers` to `silver.parcel_compliance`.
`load_parcels` truncates up front (cascading to `parcel_compliance`) and
writes the first-occurrence-deduplicated rows.  Buffers, compliance, and
the summary are then regenerated unconditionally. -/
def run_full_model {B C S : Type} (ops : DerivedOps B C S)
    (st : PipelineState B C S) (f : Fetched) : PipelineState B C S :=
  let st1 := { st with watershed := f.watershed,
                       summary := ops.emptySummary }
  let st2 :=
    if f.streamsBatch.isEmpty then st1
    else { st1 with streams := f.streamsBatch,
                    buffers := ops.emptyBuffers,
                    compliance := ops.emptyCompliance }
  let st3 :=
    if f.waterbodiesBatch.isEmpty then st2
    else { st2 with waterbodies := f.waterbodiesBatch }
  let st4 := { st3 with parcels := dedupKeepFirst f.parcelsBatch,
                        compliance := ops.emptyCompliance }
  let st5 := { st4 with buffers := ops.genBuffers st4.streams,
                        compliance := ops.emptyCompliance }
  let st6 := { st5 with
               compliance := ops.genCompliance st5.parcels st5.buffers }
  { st6 with summary := ops.genSummary st6.watershed st6.streams
                          st6.parcels st6.buffers st6.compliance }

/-- `EtlPipeline.run_incremental` over the database state.
`load_watershed` again truncates `bronze.watersheds` CASCADE (clearing
`gold.riparian_summary`) before writing; streams, waterbodies, and
parcels are upserted; then the silver/gold recomputes are gated by the
change flags.  When `streams_changed`, `generate_buffers` truncates
`silver.riparian_buffers` CASCADE (clearing `parcel_compliance`) before
regenerating.  When no flag is set, nothing else runs — in particular the
summary stays as `load_watershed` left it. -/
def run_incremental_model {B C S : Type} (ops : DerivedOps B C S)
    (st : PipelineState B C S) (f : Fetched) : PipelineState B C S :=
  let st1 := { st with watershed := f.watershed,
                       summary := ops.emptySummary }
  let us := upsertCounts st1.streams f.streamsBatch
  let uw := upsertCounts st1.waterbodies f.waterbodiesBatch
  let nhdplusResult : LayerChangeResult :=
    { layer_name := "nhdplus", inserted := us.2.1 + uw.2.1,
      updated := us.2.2 + uw.2.2, skipped := 0 }
  let up := upsertCounts st1.parcels f.parcelsBatch
  let parcelsResult : LayerChangeResult :=
    { layer_name := "parcels", inserted := up.2.1,
      updated := up.2.2, skipped := 0 }
  let streams_changed := nhdplusResult.has_changes
  let parcels_changed := parcelsResult.has_changes
  let step :=
    if streams_changed then
      (ops.genBuffers us.1, ops.emptyCompliance, true)
    else (st1.buffers, st1.compliance, false)
  let buffers_changed := step.2.2
  let compliance2 :=
    if parcels_changed || buffers_changed then
      ops.genCompliance up.1 step.1
    else step.2.1
  let summary2 :=
    if streams_changed || parcels_changed || buffers_changed then
      ops.genSummary f.watershed us.1 up.1 step.1 compliance2
    else st1.summary
  { watershed := f.watershed, streams := us.1, waterbodies := uw.1,
    parcels := up.1, buffers := step.1, compliance := compliance2,
    summary := summary2 }

/-- Concrete derived operations for exercising the run models: list-valued
layers whose regenerated summary is the non-empty `[42]`. -/
def opsC9 : DerivedOps (List Nat) (List Nat) (List Nat) :=
  { emptyBuffers := []
    emptyCompliance := []
    emptySummary := []
    genBuffers := fun s => [s.length]
    genCompliance := fun p b => [p.length + b.length]
    genSummary := fun _ _ _ _ _ => [42] }

/-- A prior state consistent with `opsC9`: every derived layer equals what
a full run would regenerate from the bronze tables. -/
def stC9 : PipelineState (List Nat) (List Nat) (List Nat) :=
  { watershed := 7, streams := [(1, 10)], waterbodies := [],
    parcels := [], buffers := [1], compliance := [1], summary := [42] }

/-- A fetch that changes nothing: the watershed row is unchanged and every
layer fetch comes back empty. -/
def fetchedC9 : Fetched :=
  { watershed := 7, streamsBatch := [], waterbodiesBatch := [],
    parcelsBatch := [] }

/-- A concrete July scene covering every buffer, each buffer's mask
selecting one half-valued NDVI pixel; used to evaluate the incremental
extractor on explicit inputs. -/
def sceneC8 : SceneModel :=
  { acqDate := ⟨2024, 7, 1⟩
    covers := fun _ => true
    pixels := fun _ => some [1/2] }

/- ---------------------------------------------------------------------
   Theorems
--------------------------------------------------------------------- -/

/-- C1: in `run_incremental`, if neither the combined streams/waterbodies
result nor the parcels result has changes, then none of buffer
regeneration, compliance intersection, or summary recomputation is
invoked and the returned triple is `(false, false, false)`; conversely,
streams changes force buffer regeneration with `buffers_changed = true`,
compliance runs iff parcels changed or buffers changed, and the summary
runs iff any of the three flags is set. -/
theorem claim_C1 (nh pc : LayerChangeResult) :
    (nh.has_changes = false → pc.has_changes = false →
      (run_incremental nh pc).1 = [EtlOp.loadWatershed] ∧
      EtlOp.generateBuffers ∉ (run_incremental nh pc).1 ∧
      EtlOp.analyzeCompliance ∉ (run_incremental nh pc).1 ∧
      EtlOp.calculateSummary ∉ (run_incremental nh pc).1 ∧
      (run_incremental nh pc).2 = (false, false, false))
    ∧ (nh.has_changes = true →
      EtlOp.generateBuffers ∈ (run_incremental nh pc).1 ∧
      (run_incremental nh pc).2.2.2 = true)
    ∧ (EtlOp.analyzeCompliance ∈ (run_incremental nh pc).1 ↔
        (pc.has_changes || (run_incremental nh pc).2.2.2) = true)
    ∧ (EtlOp.calculateSummary ∈ (run_incremental nh pc).1 ↔
        (nh.has_changes || pc.has_changes ||
          (run_incremental nh pc).2.2.2) = true) := by
  cases hnh : nh.has_changes <;> cases hpc : pc.has_changes <;>
    simp [run_incremental, hnh, hpc]

/-- Witness for C1 at a change-free pair of layer results. -/
theorem claim_C1_witness :
    (run_incremental ⟨"nhdplus", 0, 0, 0⟩ ⟨"parcels", 0, 0, 0⟩).1 =
      [EtlOp.loadWatershed]
    ∧ (run_incremental ⟨"nhdplus", 0, 0, 0⟩ ⟨"parcels", 0, 0, 0⟩).2 =
      (false, false, false) := by
  have h := (claim_C1 ⟨"nhdplus", 0, 0, 0⟩ ⟨"parcels", 0, 0, 0⟩).1
    (by decide) (by decide)
  exact ⟨h.1, h.2.2.2.2⟩

/-- C2: `classify_health` returns `dormant` for every dormant-season value
(even 0.95, and never `bare`), and in peak-growing season returns
`healthy` above 0.3, `degraded` on `[0.15, 0.3]`, and `bare` below 0.15. -/
theorem claim_C2 (v : ℚ) (d : Date) :
    (determine_season d = "dormant" →
      classify_health v (determine_season d) = "dormant")
    ∧ classify_health (95/100) "dormant" = "dormant"
    ∧ classify_health v "dormant" ≠ "bare"
    ∧ (3/10 < v → classify_health v "peak_growing" = "healthy")
    ∧ (15/100 ≤ v → v ≤ 3/10 →
        classify_health v "peak_growing" = "degraded")
    ∧ (v < 15/100 → classify_health v "peak_growing" = "bare") := by
  refine ⟨?_, rfl, ?_, ?_, ?_, ?_⟩
  · intro h; rw [h]; rfl
  · show "dormant" ≠ "bare"; decide
  · intro h; simp [classify_health, h]
  · intro h1 h2; simp [classify_health, not_lt.2 h2, h1]
  · intro h
    have h2 : ¬(3/10 : ℚ) < v := not_lt.2 (le_of_lt (h.trans (by norm_num)))
    simp [classify_health, h2, not_le.2 h]

/-- Witness for C2 at concrete index values in both seasons. -/
theorem claim_C2_witness :
    classify_health (95/100) "dormant" = "dormant"
    ∧ classify_health (1/2) "peak_growing" = "healthy"
    ∧ classify_health (1/5) "peak_growing" = "degraded"
    ∧ classify_health (1/10) "peak_growing" = "bare" := by
  refine ⟨(claim_C2 (95/100) ⟨2024, 1, 1⟩).2.1, ?_, ?_, ?_⟩
  · exact (claim_C2 (1/2) ⟨2024, 1, 1⟩).2.2.2.1 (by norm_num)
  · exact (claim_C2 (1/5) ⟨2024, 1, 1⟩).2.2.2.2.1 (by norm_num) (by norm_num)
  · exact (claim_C2 (1/10) ⟨2024, 1, 1⟩).2.2.2.2.2 (by norm_num)

/-- C3: `calculate_ndvi` computes `(nir - red) / (nir + red)` per pixel
with every non-finite result (zero denominator) replaced by 0.0; equal
positive bands give 0.0 and two zero bands give 0.0 rather than NaN. -/
theorem claim_C3 (nir red : List ℚ) (i : Nat)
    (h1 : i < nir.length) (h2 : i < red.length) :
    (calculate_ndvi nir red).get? i = some (
        if nir.get ⟨i, h1⟩ + red.get ⟨i, h2⟩ = 0 then 0
        else (nir.get ⟨i, h1⟩ - red.get ⟨i, h2⟩) /
          (nir.get ⟨i, h1⟩ + red.get ⟨i, h2⟩))
    ∧ (∀ v : ℚ, 0 < v → calculate_ndvi [v] [v] = [0])
    ∧ calculate_ndvi [0] [0] = [0] := by
  refine ⟨?_, ?_, by simp [calculate_ndvi, ndviPixel, floatDiv]⟩
  · have hz : i < (calculate_ndvi nir red).length := by
      simpa [calculate_ndvi] using lt_min h1 h2
    rw [List.get?_eq_get hz]
    simp only [calculate_ndvi, List.get_zipWith, ndviPixel, floatDiv]
    split <;> simp_all
  · intro v hv
    simp [calculate_ndvi, ndviPixel, floatDiv, hv.ne']

/-- Witness for C3 at concrete band arrays. -/
theorem claim_C3_witness :
    (calculate_ndvi [3, 0] [1, 0]).get? 0 = some (1/2)
    ∧ calculate_ndvi [2] [2] = [0]
    ∧ calculate_ndvi [0] [0] = [0] := by
  have h := claim_C3 [3, 0] [1, 0] 0 (by decide) (by decide)
  refine ⟨?_, h.2.1 2 (by norm_num), h.2.2⟩
  rw [h.1]; norm_num

/-- C5 counterexample: when the merge raises, `upsert` propagates the
error and leaves the target untouched, but the staging table is not
dropped — the `DROP TABLE` line is only reached on the success path, so
the claim that the staging area is discarded on the failure path fails at
this input. -/
theorem claim_C5_counterexample :
    (upsert [((1 : Nat), (5 : Int))] [(1, 6)] true).result = none
    ∧ (upsert [((1 : Nat), (5 : Int))] [(1, 6)] true).target = [(1, 5)]
    ∧ (upsert [((1 : Nat), (5 : Int))] [(1, 6)] true).stagingDropped
        = false := by
  decide

/-- C5 (amended): the staging table is dropped on the success path; on
the failure path the error propagates and no partial merge is visible
(the transaction rolls back, leaving the target unchanged), but the
staging table is not dropped. -/
theorem claim_C5 (tbl batch : List (Nat × Int)) :
    ((upsert tbl batch false).stagingDropped = true
      ∧ (upsert tbl batch false).result =
          some (mergeUpsert tbl (dedupKeepLast batch)).2)
    ∧ ((upsert tbl batch true).result = none
      ∧ (upsert tbl batch true).target = tbl
      ∧ (upsert tbl batch true).stagingDropped = false) :=
  ⟨⟨rfl, rfl⟩, rfl, rfl, rfl⟩

/-- C7: the incremental raster window starts the day after the last
persisted acquisition date (2024-08-15 giving 2024-08-16) or at the
June 1 default, ends today, and when the start is after today the run
returns zero processed readings without reaching the catalog search. -/
theorem claim_C7 (lastDate : Option Date) (today : Date)
    (f : Date → Date → Nat) :
    (∀ d, ndviWindowStart (some d) today = d.nextDay)
    ∧ ndviWindowStart none today = ⟨today.year, 6, 1⟩
    ∧ Date.nextDay ⟨2024, 8, 15⟩ = ⟨2024, 8, 16⟩
    ∧ (dateLtB today (ndviWindowStart lastDate today) = true →
        process_buffers_incremental lastDate today f = (false, 0))
    ∧ (dateLtB today (ndviWindowStart lastDate today) = false →
        process_buffers_incremental lastDate today f =
          (true, f (ndviWindowStart lastDate today) today)) := by
  refine ⟨fun d => rfl, rfl, by decide, ?_, ?_⟩
  · intro h; simp [process_buffers_incremental, h]
  · intro h; simp [process_buffers_incremental, h]

/-- Witness for C7: last date 2024-08-15, today 2024-08-10 (before the
computed start), so the run is a no-op with no catalog search. -/
theorem claim_C7_witness :
    process_buffers_incremental (some ⟨2024, 8, 15⟩) ⟨2024, 8, 10⟩
      (fun _ _ => 3) = (false, 0)
    ∧ Date.nextDay ⟨2024, 8, 15⟩ = ⟨2024, 8, 16⟩ := by
  have h := claim_C7 (some ⟨2024, 8, 15⟩) ⟨2024, 8, 10⟩ (fun _ _ => 3)
  exact ⟨h.2.2.2.1 (by decide), h.2.2.1⟩

/-- C9 (code bug): on a change-free incremental run over a state whose
derived layers are consistent with bronze, the two run paths end with
identical bronze tables, buffers, and compliance, yet the incremental
path leaves the gold summary empty (truncated by `load_watershed`'s
CASCADE and never recomputed because every change flag is false) while
the full path regenerates it — contradicting the required full/
incremental equivalence and the code's own comment that the summary
"gets recalculated at the end of the pipeline". -/
theorem claim_C9_bug :
    (run_incremental_model opsC9 stC9 fetchedC9).watershed =
      (run_full_model opsC9 stC9 fetchedC9).watershed
    ∧ (run_incremental_model opsC9 stC9 fetchedC9).streams =
      (run_full_model opsC9 stC9 fetchedC9).streams
    ∧ (run_incremental_model opsC9 stC9 fetchedC9).waterbodies =
      (run_full_model opsC9 stC9 fetchedC9).waterbodies
    ∧ (run_incremental_model opsC9 stC9 fetchedC9).parcels =
      (run_full_model opsC9 stC9 fetchedC9).parcels
    ∧ (run_incremental_model opsC9 stC9 fetchedC9).buffers =
      (run_full_model opsC9 stC9 fetchedC9).buffers
    ∧ (run_incremental_model opsC9 stC9 fetchedC9).compliance =
      (run_full_model opsC9 stC9 fetchedC9).compliance
    ∧ (run_incremental_model opsC9 stC9 fetchedC9).summary = []
    ∧ (run_full_model opsC9 stC9 fetchedC9).summary = [42] := by
  decide

/-- Every survivor of the staging dedup was a staged row. -/
theorem mem_dedupKeepLast {α : Type} {x : Nat × α} :
    ∀ {l : List (Nat × α)}, x ∈ dedupKeepLast l → x ∈ l := by
  intro l
  induction l with
  | nil => simp [dedupKeepLast]
  | cons r rest ih =>
    simp only [dedupKeepLast]
    split
    · exact fun h => List.mem_cons_of_mem _ (ih h)
    · intro h
      rcases List.mem_cons.1 h with h | h
      · exact h ▸ List.mem_cons_self _ _
      · exact List.mem_cons_of_mem _ (ih h)

/-- Dropping the head of a non-empty list does not change its last
element. -/
theorem getLast?_cons_of_ne_nil {β : Type} (a : β) {l : List β}
    (h : l ≠ []) : (a :: l).getLast? = l.getLast? := by
  cases l with
  | nil => exact absurd rfl h
  | cons b bs => exact List.getLast?_cons_cons

/-- The rows of the deduplicated staging table with a given conflict key
are exactly the last staged occurrence of that key (none when the key was
never staged). -/
theorem dedupKeepLast_filter {α : Type} (l : List (Nat × α)) (k : Nat) :
    (dedupKeepLast l).filter (fun x => x.1 == k) =
      ((l.filter (fun x => x.1 == k)).getLast?).toList := by
  induction l with
  | nil => rfl
  | cons r rest ih =>
    by_cases hdup : rest.any (fun b => b.1 == r.1) = true
    · rw [show dedupKeepLast (r :: rest) = dedupKeepLast rest from by
        simp [dedupKeepLast, hdup]]
      rw [ih, List.filter_cons]
      cases hk : (r.1 == k) with
      | false => simp
      | true =>
        have hr : r.1 = k := by simpa using hk
        have hne : rest.filter (fun x => x.1 == k) ≠ [] := by
          rcases List.any_eq_true.1 hdup with ⟨b, hb, hbeq⟩
          have hbk : ((fun x : Nat × α => x.1 == k) b) = true := by
            simp only [beq_iff_eq] at hbeq ⊢
            rw [hbeq, hr]
          intro hnil
          have hbm : b ∈ rest.filter (fun x => x.1 == k) :=
            List.mem_filter.2 ⟨hb, hbk⟩
          rw [hnil] at hbm
          exact List.not_mem_nil _ hbm
        simp only [if_true]
        rw [getLast?_cons_of_ne_nil _ hne]
    · rw [show dedupKeepLast (r :: rest) = r :: dedupKeepLast rest from by
        simp [dedupKeepLast, hdup]]
      rw [List.filter_cons, List.filter_cons]
      cases hk : (r.1 == k) with
      | false => simpa using ih
      | true =>
        have hr : r.1 = k := by simpa using hk
        have hnone : rest.filter (fun x => x.1 == k) = [] := by
          rw [List.filter_eq_nil_iff]
          intro b hb hbk
          apply hdup
          refine List.any_eq_true.2 ⟨b, hb, ?_⟩
          have hbk2 : b.1 = k := by simpa using hbk
          simp only [beq_iff_eq]
          rw [hbk2, hr]
        have h2 : (dedupKeepLast rest).filter (fun x => x.1 == k) = [] := by
          rw [ih, hnone]; rfl
        simp only [if_true, h2, hnone]
        rfl

/-- C4: a batch staged by the upsert engine that contains two or more
rows with the same conflict key keeps exactly one row for that key after
the staging deduplication, and the survivor is the last occurrence in
fetch order (last-write-wins). -/
theorem claim_C4 (batch : List (Nat × Int)) (k : Nat) (r : Nat × Int)
    (hdups : 2 ≤ (batch.filter (fun x => x.1 == k)).length)
    (hlast : (batch.filter (fun x => x.1 == k)).getLast? = some r) :
    (dedupKeepLast batch).filter (fun x => x.1 == k) = [r] := by
  rw [dedupKeepLast_filter, hlast]; rfl

/-- Witness for C4: key 1 staged twice; the later row `(1, 30)` survives. -/
theorem claim_C4_witness :
    (dedupKeepLast [((1 : Nat), (10 : Int)), (2, 20), (1, 30)]).filter
      (fun x => x.1 == 1) = [(1, 30)] :=
  claim_C4 [(1, 10), (2, 20), (1, 30)] 1 (1, 30) (by decide) (by decide)

set_option maxRecDepth 10000 in
/-- C6 counterexample: with parcel key 0 appearing both on a full first
page and on a second page, `load_parcels_incremental` invokes the upsert
twice with a batch containing key 0 — there is no cross-batch
deduplication — refuting the claim that the upsert is never invoked twice
for the same parcel key within one run. -/
theorem claim_C6_counterexample :
    (load_parcels_incremental
        [(List.range ARCGIS_BATCH_SIZE).map (fun i => (some i, (0 : Int))),
         [(some 0, 7)]]).map
      (fun b => b.any (fun r => r.1 == 0)) = [true, true] := by
  decide

/-- C6 (amended): every batch the incremental parcel load hands to the
upsert is non-empty and equals exactly the null-key-dropped rows of one
fetched page — null natural keys are dropped, but no within-batch or
cross-batch key deduplication happens in `load_parcels_incremental`
itself (within-batch duplicates are collapsed only later by the upsert
engine's staging dedup), so a key appearing on two pages is upserted
twice. -/
theorem claim_C6 (pages : List (List (Option Nat × Int)))
    (b : List (Nat × Int)) (hb : b ∈ load_parcels_incremental pages) :
    b ≠ [] ∧ ∃ p ∈ pages, b = dropNullParcelIds p := by
  induction pages with
  | nil => simp [load_parcels_incremental] at hb
  | cons page rest ih =>
    simp only [load_parcels_incremental] at hb
    by_cases hp : page.isEmpty = true
    · rw [if_pos hp] at hb
      exact absurd hb (List.not_mem_nil _)
    · rw [if_neg hp] at hb
      by_cases hg : (dropNullParcelIds page).isEmpty = true
      · rw [if_pos hg] at hb
        rcases ih hb with ⟨hne, p, hp2, hpe⟩
        exact ⟨hne, p, List.mem_cons_of_mem _ hp2, hpe⟩
      · have hgne : dropNullParcelIds page ≠ [] := by
          simpa using hg
        rw [if_neg hg] at hb
        by_cases hlen :
            (dropNullParcelIds page).length < ARCGIS_BATCH_SIZE
        · rw [if_pos hlen] at hb
          rcases List.mem_singleton.1 hb with rfl
          exact ⟨hgne, page, List.mem_cons_self _ _, rfl⟩
        · rw [if_neg hlen] at hb
          rcases List.mem_cons.1 hb with rfl | hb2
          · exact ⟨hgne, page, List.mem_cons_self _ _, rfl⟩
          · rcases ih hb2 with ⟨hne, p, hp2, hpe⟩
            exact ⟨hne, p, List.mem_cons_of_mem _ hp2, hpe⟩

/-- Witness for C6: a single short page yields one upsert batch equal to
the page's null-dropped rows. -/
theorem claim_C6_witness :
    ([((1 : Nat), (5 : Int))] ≠ [] ∧
      ∃ p ∈ [[(some 1, (5 : Int)), (none, 9)]],
        [((1 : Nat), (5 : Int))] = dropNullParcelIds p) :=
  claim_C6 [[(some 1, 5), (none, 9)]] [(1, 5)] (by decide)

/-- When every pixel lies outside the valid index range, the statistics
collapse to `(0, 0, 0)`. -/
theorem compute_ndvi_stats_all_invalid (px : List ℚ)
    (hout : ∀ v ∈ px, v < -1 ∨ 1 < v) :
    compute_ndvi_stats px = (0, 0, 0) := by
  have hnil : px.filter (fun v => decide (-1 ≤ v) && decide (v ≤ 1)) = [] := by
    rw [List.filter_eq_nil_iff]
    intro v hv
    rcases hout v hv with h | h <;>
      simp [not_le.2 h]
  simp [compute_ndvi_stats, hnil]

/-- C10: a buffer whose mask selects at least one pixel always yields a
reading, even when no selected value lies in `[-1, 1]` — then mean, min,
and max are all 0.0 and the health category is classified from mean 0.0 —
and the no-reading outcome occurs exactly when zero pixels are selected
or mask construction fails. -/
theorem claim_C10 (bid : Nat) (px : List ℚ) (d : Date) (season : String)
    (hne : px ≠ []) (hout : ∀ v ∈ px, v < -1 ∨ 1 < v) :
    extract_buffer_reading bid (some px) d season =
      some { buffer_id := bid, acquisition_date := d, mean_ndvi := 0,
             min_ndvi := 0, max_ndvi := 0,
             health_category := classify_health 0 season,
             season_context := season }
    ∧ ∀ mp : Option (List ℚ),
        (extract_buffer_reading bid mp d season = none ↔
          mp = none ∨ mp = some []) := by
  constructor
  · have hF : px.isEmpty = false := by simpa using hne
    have hstats := compute_ndvi_stats_all_invalid px hout
    simp [extract_buffer_reading, hF, hstats, round4]
  · intro mp
    match mp with
    | none => simp [extract_buffer_reading]
    | some [] => simp [extract_buffer_reading]
    | some (a :: as) => simp [extract_buffer_reading]

/-- Witness for C10 at a single out-of-range pixel in peak season. -/
theorem claim_C10_witness :
    extract_buffer_reading 1 (some [2]) ⟨2024, 7, 1⟩ "peak_growing" =
      some { buffer_id := 1, acquisition_date := ⟨2024, 7, 1⟩,
             mean_ndvi := 0, min_ndvi := 0, max_ndvi := 0,
             health_category := classify_health 0 "peak_growing",
             season_context := "peak_growing" }
    ∧ extract_buffer_reading 1 none ⟨2024, 7, 1⟩ "peak_growing" = none := by
  have h := claim_C10 1 [2] ⟨2024, 7, 1⟩ "peak_growing" (by simp)
    (by intro v hv; rw [List.mem_singleton] at hv; subst hv; right; norm_num)
  exact ⟨h.1, (h.2 none).2 (Or.inl rfl)⟩

/-- A successful per-buffer extraction fixes the reading's identity
fields. -/
theorem extract_some_fields {bid : Nat} {mp : Option (List ℚ)} {d : Date}
    {season : String} {r : NdviReading}
    (h : extract_buffer_reading bid mp d season = some r) :
    r.buffer_id = bid ∧ r.acquisition_date = d ∧ r.satellite = SENTINEL2 := by
  match mp with
  | none => simp [extract_buffer_reading] at h
  | some l =>
    by_cases hl : l.isEmpty = true
    · simp [extract_buffer_reading, hl] at h
    · simp only [extract_buffer_reading, hl, Bool.false_eq_true,
        if_false, Option.some.injEq] at h
      subst h
      exact ⟨rfl, rfl, rfl⟩

/-- Every reading emitted by the incremental scene pass comes from a
covered buffer whose key was not yet processed, by a successful
extraction. -/
theorem process_scene_mem {s : SceneModel} {b : List Nat}
    {p : List NdviKey} {r : NdviReading}
    (h : r ∈ (process_scene_incremental s b p).2) :
    r.buffer_id ∈ b.filter s.covers ∧ sceneKey s r.buffer_id ∉ p ∧
      extract_buffer_reading r.buffer_id (s.pixels r.buffer_id) s.acqDate
        (determine_season s.acqDate) = some r := by
  by_cases hall : b.all (fun bid => decide (sceneKey s bid ∈ p)) = true
  · simp [process_scene_incremental, hall] at h
  · simp only [process_scene_incremental, hall, Bool.false_eq_true,
      if_false, List.mem_filterMap] at h
    rcases h with ⟨bid, hbid, hf⟩
    by_cases hkey : sceneKey s bid ∈ p
    · rw [if_pos hkey] at hf; exact absurd hf (by simp)
    · rw [if_neg hkey] at hf
      rcases extract_some_fields hf with ⟨hb, _, _⟩
      rw [hb]
      exact ⟨hbid, hkey, hf⟩

/-- Conversely, a covered, unprocessed buffer with a successful
extraction contributes its reading to the incremental scene pass. -/
theorem process_scene_complete {s : SceneModel} {b : List Nat}
    {p : List NdviKey} {bid : Nat} {r : NdviReading}
    (hbid : bid ∈ b.filter s.covers) (hkey : sceneKey s bid ∉ p)
    (hext : extract_buffer_reading bid (s.pixels bid) s.acqDate
      (determine_season s.acqDate) = some r) :
    r ∈ (process_scene_incremental s b p).2 := by
  have hall : ¬b.all (fun x => decide (sceneKey s x ∈ p)) = true := by
    intro hall
    have := List.all_eq_true.1 hall bid (List.mem_filter.1 hbid).1
    rw [decide_eq_true_eq] at this
    exact hkey this
  simp only [process_scene_incremental, hall, Bool.false_eq_true,
    if_false, List.mem_filterMap]
  exact ⟨bid, hbid, by rw [if_neg hkey]; exact hext⟩

/-- C8: if every buffer's key for a scene's acquisition date is already
processed, the scene's band reads are skipped and it contributes no
readings; otherwise no reading is emitted for an already-processed
buffer; and re-running the scene loop after the first run's readings have
been persisted (an otherwise unchanged processed-key set and unchanged
scene catalog) yields zero new readings. -/
theorem claim_C8 (s : SceneModel) (scenes : List SceneModel)
    (bufferIds : List Nat) (processed : List NdviKey) :
    ((∀ bid ∈ bufferIds, sceneKey s bid ∈ processed) →
      process_scene_incremental s bufferIds processed = (false, []))
    ∧ (∀ r ∈ (process_scene_incremental s bufferIds processed).2,
        readingKey r ∉ processed)
    ∧ processScenesIncremental scenes bufferIds
        (processed ++
          (processScenesIncremental scenes bufferIds processed).map
            readingKey) = [] := by
  refine ⟨?_, ?_, ?_⟩
  · intro h
    have hall : bufferIds.all
        (fun bid => decide (sceneKey s bid ∈ processed)) = true :=
      List.all_eq_true.2 fun x hx => decide_eq_true (h x hx)
    unfold process_scene_incremental
    rw [if_pos hall]
  · intro r hr
    rcases process_scene_mem hr with ⟨_, hkey, hext⟩
    rcases extract_some_fields hext with ⟨_, hd, hs⟩
    have hrw : readingKey r = sceneKey s r.buffer_id := by
      rw [readingKey, hd, hs]; rfl
    rw [hrw]
    exact hkey
  · rw [processScenesIncremental, List.flatten_eq_nil_iff]
    intro l hl
    rcases List.mem_map.1 hl with ⟨sc, hsc, rfl⟩
    by_cases hall : bufferIds.all (fun bid => decide (sceneKey sc bid ∈
        processed ++ (processScenesIncremental scenes bufferIds
          processed).map readingKey)) = true
    · unfold process_scene_incremental
      rw [if_pos hall]
    · unfold process_scene_incremental
      rw [if_neg hall]
      refine List.filterMap_eq_nil_iff.2 ?_
      intro bid hbid
      by_cases hkey : sceneKey sc bid ∈ processed ++
          (processScenesIncremental scenes bufferIds processed).map
            readingKey
      · rw [if_pos hkey]
      · rw [if_neg hkey]
        have hkp : sceneKey sc bid ∉ processed := fun hmem =>
          hkey (List.mem_append_left _ hmem)
        cases hext : extract_buffer_reading bid (sc.pixels bid) sc.acqDate
            (determine_season sc.acqDate) with
        | none => rfl
        | some r =>
          exfalso
          have hmem := process_scene_complete hbid hkp hext
          have hrun : r ∈ processScenesIncremental scenes bufferIds
              processed := by
            rw [processScenesIncremental]
            exact List.mem_flatten.2
              ⟨_, List.mem_map_of_mem _ hsc, hmem⟩
          rcases extract_some_fields hext with ⟨hb, hd, hs⟩
          apply hkey
          apply List.mem_append_right
          have : sceneKey sc bid = readingKey r := by
            rw [readingKey, hb, hd, hs]; rfl
          rw [this]
          exact List.mem_map_of_mem _ hrun

/-- Witness for C8: one buffer, one July scene; with the key already
processed the scene short-circuits, and re-running after persisting the
first run's readings yields nothing new. -/
theorem claim_C8_witness :
    process_scene_incremental sceneC8 [1]
      [(1, dateStr ⟨2024, 7, 1⟩, SENTINEL2)] = (false, [])
    ∧ processScenesIncremental [sceneC8] [1]
        ([] ++ (processScenesIncremental [sceneC8] [1] []).map
          readingKey) = [] := by
  constructor
  · refine (claim_C8 sceneC8 [] [1]
      [(1, dateStr ⟨2024, 7, 1⟩, SENTINEL2)]).1 ?_
    intro bid hbid
    rw [List.mem_singleton] at hbid
    subst hbid
    exact List.mem_singleton.2 rfl
  · exact (claim_C8 sceneC8 [sceneC8] [1] []).2.2
